import Mathlib

/-!
Shallow embedding of the SpendLens frontend (React plus TypeScript): the
authentication session lifecycle, the upload form submission, and the
dashboard summary logic, with theorems checking the natural language
specification against the code.

Conventions used throughout:
- JavaScript strings are Lean `String`; `null` or absent values are `Option`.
- JavaScript numbers produced by `parseFloat` are modelled as `Option ℚ`:
  `some q` is a finite number, `none` is a non finite result such as `NaN`.
  `parseFloat` itself is passed as a parameter of each definition that
  uses it, since floating point parsing is outside the embedding.
- String keyed JavaScript objects such as `Record<string, string>` are
  association lists in insertion order, the iteration order of
  `Object.entries`.
-/

namespace SpendLens

/-- The user object returned by the backend identity endpoint
(`src/frontend/src/context/AuthContext.tsx`, interface `User`). -/
structure User where
  id : String
  email : String
  username : Option String
  deriving DecidableEq

/-- The state managed by `AuthProvider` in `AuthContext.tsx`: the `user`,
`token` and `isLoading` React states, plus the durable `localStorage` entry
stored under the key `authToken`. -/
structure AuthState where
  user : Option User
  token : Option String
  isLoading : Bool
  storage : Option String
  deriving DecidableEq

/-- `AuthContext.tsx` lines 31 to 33: on mount the user state is `null`, the
token state is initialised from `localStorage.getItem` and `isLoading`
starts `true`. -/
def initialState (stored : Option String) : AuthState :=
  { user := none, token := stored, isLoading := true, storage := stored }

/-- `AuthContext.tsx` lines 98 to 105: `login` persists the token under the
storage key, then sets the `token`, `user` and `isLoading` states. -/
def login (userData : User) (authToken : String) (_s : AuthState) : AuthState :=
  { user := some userData, token := some authToken, isLoading := false,
    storage := some authToken }

/-- `AuthContext.tsx` lines 111 to 117: `logout` removes the storage key and
clears the `token` and `user` states, ending loading. -/
def logout (_s : AuthState) : AuthState :=
  { user := none, token := none, isLoading := false, storage := none }

/-- Outcome of the fetch against `/api/v1/auth/users/me`: a 2xx response
with a parsed user payload, a non 2xx status, or a network failure. A 2xx
response whose body fails to parse takes the same catch path as a network
failure. -/
inductive VerifyResponse where
  | ok (userData : User)
  | httpError (status : Nat)
  | networkFailure
  deriving DecidableEq

/-- `AuthContext.tsx` lines 39 to 85, `verifyTokenAndGetUser`. Returns the
next state and whether a request was issued. With no token the function only
finishes loading. Otherwise it issues the request: a 2xx response sets the
user; any non 2xx status (401 differs only in logging) and any network
failure reach the catch block, which removes the storage key and clears both
the token and the user; the finally block always ends loading. -/
def verifyTokenAndGetUser (s : AuthState) (response : VerifyResponse) :
    AuthState × Bool :=
  match s.token with
  | none => ({ s with isLoading := false }, false)
  | some _ =>
    match response with
    | .ok userData => ({ s with user := some userData, isLoading := false }, true)
    | .httpError _ =>
        ({ s with user := none, token := none, storage := none,
                  isLoading := false }, true)
    | .networkFailure =>
        ({ s with user := none, token := none, storage := none,
                  isLoading := false }, true)

/-- Session states reachable through the `AuthProvider` lifecycle: the mount
state read from durable storage, `login`, `logout`, and the effect that runs
`verifyTokenAndGetUser` with some outcome. -/
inductive Reachable : AuthState → Prop where
  | start (stored : Option String) : Reachable (initialState stored)
  | doLogin (u : User) (t : String) {s : AuthState} :
      Reachable s → Reachable (login u t s)
  | doLogout {s : AuthState} : Reachable s → Reachable (logout s)
  | doVerify (r : VerifyResponse) {s : AuthState} :
      Reachable s → Reachable (verifyTokenAndGetUser s r).1

/-- C1: for every stored token whose verification request completes with
HTTP 401, any other non 2xx status, or a network failure, the session ends
with `user = null`, `token = null`, loading finished, and the durable
storage key removed. -/
theorem verify_failure_clears_session (s : AuthState) (r : VerifyResponse)
    (htok : s.token ≠ none) (hfail : ∀ u, r ≠ VerifyResponse.ok u) :
    (verifyTokenAndGetUser s r).1.user = none ∧
    (verifyTokenAndGetUser s r).1.token = none ∧
    (verifyTokenAndGetUser s r).1.storage = none ∧
    (verifyTokenAndGetUser s r).1.isLoading = false := by
  rcases htok2 : s.token with _ | t
  · exact absurd htok2 htok
  · cases r with
    | ok u => exact absurd rfl (hfail u)
    | httpError st => simp [verifyTokenAndGetUser, htok2]
    | networkFailure => simp [verifyTokenAndGetUser, htok2]

/-- C1 witness: a stored token rejected with HTTP 401 ends in the cleared
anonymous state. -/
theorem verify_failure_clears_session_witness :
    (verifyTokenAndGetUser (initialState (some "tok"))
        (VerifyResponse.httpError 401)).1.user = none ∧
    (verifyTokenAndGetUser (initialState (some "tok"))
        (VerifyResponse.httpError 401)).1.token = none ∧
    (verifyTokenAndGetUser (initialState (some "tok"))
        (VerifyResponse.httpError 401)).1.storage = none ∧
    (verifyTokenAndGetUser (initialState (some "tok"))
        (VerifyResponse.httpError 401)).1.isLoading = false :=
  verify_failure_clears_session _ _ (by simp [initialState])
    (fun u h => VerifyResponse.noConfusion h)

/-- C2: in every reachable session state, a non null user implies a non null
token. -/
theorem reachable_user_implies_token {s : AuthState} (h : Reachable s)
    (hu : s.user ≠ none) : s.token ≠ none := by
  induction h with
  | start stored => simp [initialState] at hu
  | doLogin u t hr ih => simp [login]
  | doLogout hr ih => simp [logout] at hu
  | doVerify r hr ih =>
    rename_i s0
    rcases htok : s0.token with _ | t
    · simp only [verifyTokenAndGetUser, htok] at hu ⊢
      exact absurd htok (ih hu)
    · cases r with
      | ok u => simp [verifyTokenAndGetUser, htok]
      | httpError st => simp [verifyTokenAndGetUser, htok] at hu
      | networkFailure => simp [verifyTokenAndGetUser, htok] at hu

/-- C2 witness: after login from the fresh anonymous start the user is set,
and the invariant yields a non null token. -/
theorem reachable_user_implies_token_witness :
    (login ⟨"1", "a@b.c", none⟩ "tok" (initialState none)).token ≠ none :=
  reachable_user_implies_token
    (Reachable.doLogin ⟨"1", "a@b.c", none⟩ "tok" (Reachable.start none))
    (by simp [login])

/-- C5: a `login` call synchronously persists the token to durable storage
and yields exactly that token and user with loading finished; the state read
immediately after the call is that state, whatever the state before was, so
no `Loading` state intervenes. -/
theorem login_immediate_state (u : User) (t : String) (s : AuthState) :
    login u t s =
      { user := some u, token := some t, isLoading := false,
        storage := some t } ∧
    (login u t s).isLoading = false :=
  ⟨rfl, rfl⟩

/-- C6: `logout` removes the stored token and clears the session; a fresh
start from the resulting storage resolves to the anonymous state with
loading finished and issues no request, whatever response a request would
have produced. -/
theorem logout_fresh_start (s : AuthState) (r : VerifyResponse) :
    (logout s).storage = none ∧ (logout s).user = none ∧
    (logout s).token = none ∧
    verifyTokenAndGetUser (initialState (logout s).storage) r =
      ({ user := none, token := none, isLoading := false, storage := none },
       false) :=
  ⟨rfl, rfl, rfl, rfl⟩

/-- The local state of `src/frontend/src/components/UploadForm.tsx` at the
moment the form is submitted: the selected file (its name; only presence
matters), the chosen file type value (the empty string is the unchosen
placeholder), the optional project id text, and the session token from
`useAuth`. -/
structure UploadFormState where
  selectedFile : Option String
  fileType : String
  projectId : String
  token : Option String
  deriving DecidableEq

/-- What one `handleSubmit` call does before any response arrives: either it
stops with a local validation message, or it issues the multipart POST to
`/api/v1/transactions/upload/csv`. -/
inductive SubmitStep where
  | localError (text : String)
  | request (file : String) (file_type : String) (project_id : Option String)
      (bearer : String)
  deriving DecidableEq

/-- `UploadForm.tsx` lines 98 to 138, `handleSubmit` up to the fetch. The
source checks the three preconditions in order with JavaScript truthiness,
so an empty file type string and an empty token string are violations too;
the project id is appended to the form data only when non empty. -/
def handleSubmit (st : UploadFormState) : SubmitStep :=
  match st.selectedFile with
  | none => SubmitStep.localError "Please select a file to upload."
  | some file =>
    if st.fileType = "" then SubmitStep.localError "Please select the type of file."
    else
      match st.token with
      | none =>
          SubmitStep.localError "Authentication error. Please log in again."
      | some tok =>
          if tok = "" then
            SubmitStep.localError "Authentication error. Please log in again."
          else
            SubmitStep.request file st.fileType
              (if st.projectId = "" then none else some st.projectId) tok

/-- Whether a `handleSubmit` outcome reaches the network. -/
def issuesNetworkRequest : SubmitStep → Bool
  | SubmitStep.localError _ => false
  | SubmitStep.request _ _ _ _ => true

/-- C7: a submission with no selected file, an unchosen file type, or a null
session token issues no network request and sets a local validation message
identifying the violated precondition. -/
theorem handleSubmit_precondition_violation (st : UploadFormState)
    (h : st.selectedFile = none ∨ st.fileType = "" ∨ st.token = none) :
    issuesNetworkRequest (handleSubmit st) = false ∧
    (handleSubmit st = SubmitStep.localError "Please select a file to upload." ∨
     handleSubmit st = SubmitStep.localError "Please select the type of file." ∨
     handleSubmit st =
       SubmitStep.localError "Authentication error. Please log in again.") := by
  rcases hf : st.selectedFile with _ | file
  · simp [handleSubmit, hf, issuesNetworkRequest]
  · by_cases ht : st.fileType = ""
    · simp [handleSubmit, hf, ht, issuesNetworkRequest]
    · rcases htok : st.token with _ | tok
      · simp [handleSubmit, hf, ht, htok, issuesNetworkRequest]
      · rcases h with h | h | h
        · rw [hf] at h
          exact Option.noConfusion h
        · exact absurd h ht
        · rw [htok] at h
          exact Option.noConfusion h

/-- C7 witness: submitting the pristine form, with nothing selected and no
session, is rejected locally. -/
theorem handleSubmit_precondition_violation_witness :
    issuesNetworkRequest (handleSubmit ⟨none, "", "", none⟩) = false ∧
    (handleSubmit ⟨none, "", "", none⟩ =
       SubmitStep.localError "Please select a file to upload." ∨
     handleSubmit ⟨none, "", "", none⟩ =
       SubmitStep.localError "Please select the type of file." ∨
     handleSubmit ⟨none, "", "", none⟩ =
       SubmitStep.localError "Authentication error. Please log in again.") :=
  handleSubmit_precondition_violation ⟨none, "", "", none⟩ (Or.inl rfl)

/-- `UploadForm.tsx` line 148: on a 2xx upload response the displayed text is
`result.message || ...` with a fixed fallback, so by JavaScript truthiness an
absent message and an empty string message both fall back. The `message`
field of the parsed JSON body is modelled as `Option String`. -/
def uploadSuccessText (message : Option String) : String :=
  match message with
  | some m => if m = "" then "File uploaded successfully!" else m
  | none => "File uploaded successfully!"

/-- C8 counterexample: a 2xx body whose `message` field is present but is the
empty string displays the fixed default, not that field, because the source
uses JavaScript truthiness rather than presence. -/
theorem uploadSuccessText_empty_counterexample :
    uploadSuccessText (some "") ≠ "" := by decide

/-- C8 amended: the displayed success message equals the message field of the
response body when the field is present and non empty, and equals the fixed
default string when the field is absent or empty. -/
theorem uploadSuccessText_amended (m : String) (hm : m ≠ "") :
    uploadSuccessText (some m) = m ∧
    uploadSuccessText none = "File uploaded successfully!" ∧
    uploadSuccessText (some "") = "File uploaded successfully!" :=
  ⟨by simp [uploadSuccessText, hm], rfl, rfl⟩

/-- C8 witness: the body with message text ok displays ok, and the default
cases display the fixed default. -/
theorem uploadSuccessText_amended_witness :
    uploadSuccessText (some "ok") = "ok" ∧
    uploadSuccessText none = "File uploaded successfully!" ∧
    uploadSuccessText (some "") = "File uploaded successfully!" :=
  uploadSuccessText_amended "ok" (by decide)

/-- `String.prototype.toLowerCase` for the ASCII text the dashboard
inspects. -/
def jsToLower (s : String) : String := String.mk (s.toList.map Char.toLower)

/-- `String.prototype.includes`. -/
def jsIncludes (s pat : String) : Bool := decide (pat.toList <:+: s.toList)

/-- `Math.abs`; on `NaN` it yields `NaN`. -/
def jsAbs (x : Option ℚ) : Option ℚ := x.map (fun q => |q|)

/-- The JavaScript `>` on numbers: any comparison against `NaN` is false. -/
def jsGt (a b : Option ℚ) : Bool :=
  match a, b with
  | some x, some y => decide (y < x)
  | _, _ => false

/-- JavaScript division. A zero divisor yields an infinity or `NaN`, and a
non finite operand propagates, so every non finite outcome is `none`. -/
def jsDiv (a b : Option ℚ) : Option ℚ :=
  match a, b with
  | some x, some y => if y = 0 then none else some (x / y)
  | _, _ => none

/-- JavaScript multiplication restricted to the finite cases; a non finite
operand propagates as `none`. -/
def jsMul (a b : Option ℚ) : Option ℚ :=
  match a, b with
  | some x, some y => some (x * y)
  | _, _ => none

/-- The JavaScript strict `!==` on numbers: `NaN` is unequal to
everything. -/
def jsStrictNeq (a b : Option ℚ) : Bool :=
  match a, b with
  | some x, some y => decide (x ≠ y)
  | _, _ => true

/-- The period summary payload (`src/frontend/src/App.tsx`, interface
`FinancialSummary`), keeping the fields the dashboard logic reads. The
monetary fields are the opaque decimal strings of the wire format; the
breakdown records are association lists in iteration order. -/
structure FinancialSummary where
  total_transactions : Int
  total_income : String
  total_spending : String
  net_flow_operational : String
  spending_by_category : List (String × String)
  income_by_category : List (String × String)
  revenue_by_client : List (String × String)
  revenue_by_project : List (String × String)
  deriving DecidableEq

/-- Outcome of the fetch against `/api/v1/insights/summary`: a 2xx response
(whose parsed body is `some` summary when `total_transactions` is a number
and `none` when the data is incomplete), a non 2xx status with its body
text, or a network failure with its error message. -/
inductive SummaryFetchResponse where
  | success (body : Option FinancialSummary)
  | httpError (status : Nat) (body : String)
  | networkFailure (message : String)
  deriving DecidableEq

/-- `App.tsx` lines 166 to 211, `fetchCurrentMonthSummary`, as the pair of
the `currentMonthSummary` and `error` states it leaves behind once loading
has settled. A 404, or a 500 whose lowercased body contains the text
no transaction, clears the summary and leaves no error; every other non 2xx
status throws, and the catch block records the error message. -/
def fetchCurrentMonthSummary (response : SummaryFetchResponse) :
    Option FinancialSummary × Option String :=
  match response with
  | .success (some data) => (some data, none)
  | .success none => (none, none)
  | .httpError status errorBody =>
      if status == 404
          || (status == 500 && jsIncludes (jsToLower errorBody) "no transaction") then
        (none, none)
      else
        (none, some ("Failed to fetch summary: " ++ toString status ++ ". " ++ errorBody))
  | .networkFailure message => (none, some message)

/-- `App.tsx` lines 498 to 513: the empty state card is rendered once
loading is done, exactly when there is no summary and no error. -/
def rendersEmptyState (result : Option FinancialSummary × Option String) : Bool :=
  result.1.isNone && result.2.isNone

/-- `App.tsx` lines 313 to 319: the error banner is rendered once loading is
done, exactly when an error message is set. -/
def rendersErrorBanner (result : Option FinancialSummary × Option String) : Bool :=
  result.2.isSome

/-- C4: a non 2xx period summary response renders the empty state exactly
when its status is 404, or is 500 with a body containing the text
no transaction; in particular a 500 response whose body says no transactions
found renders the empty state, and every other failure, including a network
failure, renders the error banner. -/
theorem dashboard_summary_failure_rendering (status : Nat) (body : String)
    (message : String) :
    (rendersEmptyState
        (fetchCurrentMonthSummary (SummaryFetchResponse.httpError status body)) = true ↔
      (status = 404 ∨
        (status = 500 ∧ jsIncludes (jsToLower body) "no transaction" = true))) ∧
    (rendersErrorBanner
        (fetchCurrentMonthSummary (SummaryFetchResponse.httpError status body)) = true ↔
      ¬(status = 404 ∨
        (status = 500 ∧ jsIncludes (jsToLower body) "no transaction" = true))) ∧
    rendersEmptyState
      (fetchCurrentMonthSummary
        (SummaryFetchResponse.httpError 500
          "Internal Server Error: no transactions found for user")) = true ∧
    rendersErrorBanner
      (fetchCurrentMonthSummary (SummaryFetchResponse.networkFailure message)) = true := by
  refine ⟨?_, ?_, by decide, by simp [fetchCurrentMonthSummary, rendersErrorBanner]⟩
  · by_cases hcond : status = 404 ∨
        (status = 500 ∧ jsIncludes (jsToLower body) "no transaction" = true)
    · have hb : (status == 404
          || (status == 500 && jsIncludes (jsToLower body) "no transaction")) = true := by
        simp only [Bool.or_eq_true, Bool.and_eq_true, beq_iff_eq]
        exact hcond
      simp [fetchCurrentMonthSummary, rendersEmptyState, hb, hcond]
    · have hb : (status == 404
          || (status == 500 && jsIncludes (jsToLower body) "no transaction")) = false := by
        simp only [Bool.or_eq_false_iff, Bool.and_eq_false_iff, beq_eq_false_iff_ne]
        push_neg at hcond
        rcases hcond with ⟨h1, h2⟩
        refine ⟨h1, ?_⟩
        by_cases h5 : status = 500
        · exact Or.inr (by simpa [h5] using h2 h5)
        · exact Or.inl h5
      simp [fetchCurrentMonthSummary, rendersEmptyState, hb, hcond]
  · by_cases hcond : status = 404 ∨
        (status = 500 ∧ jsIncludes (jsToLower body) "no transaction" = true)
    · have hb : (status == 404
          || (status == 500 && jsIncludes (jsToLower body) "no transaction")) = true := by
        simp only [Bool.or_eq_true, Bool.and_eq_true, beq_iff_eq]
        exact hcond
      simp [fetchCurrentMonthSummary, rendersErrorBanner, hb, hcond]
    · have hb : (status == 404
          || (status == 500 && jsIncludes (jsToLower body) "no transaction")) = false := by
        simp only [Bool.or_eq_false_iff, Bool.and_eq_false_iff, beq_eq_false_iff_ne]
        push_neg at hcond
        rcases hcond with ⟨h1, h2⟩
        refine ⟨h1, ?_⟩
        by_cases h5 : status = 500
        · exact Or.inr (by simpa [h5] using h2 h5)
        · exact Or.inl h5
      simp [fetchCurrentMonthSummary, rendersErrorBanner, hb, hcond]

/-- `App.tsx` lines 276 to 278: the profit margin is the operational net
flow divided by the total income, times 100, computed only when a summary is
present and `parseFloat` of the total income is strictly unequal to zero
(`NaN` is unequal to zero under `!==`); in every other case it is `null`.
`parseFloat` is the `parse` parameter. -/
def profitMargin (parse : String → Option ℚ)
    (currentMonthSummary : Option FinancialSummary) : Option (Option ℚ) :=
  match currentMonthSummary with
  | some s =>
      if jsStrictNeq (parse s.total_income) (some 0) then
        some (jsMul (jsDiv (parse s.net_flow_operational) (parse s.total_income))
          (some 100))
      else none
  | none => none

/-- `App.tsx` lines 406 to 418: the profit margin card is rendered exactly
when `profitMargin` is not `null`. -/
def profitMarginCardRendered (parse : String → Option ℚ)
    (currentMonthSummary : Option FinancialSummary) : Bool :=
  (profitMargin parse currentMonthSummary).isSome

/-- Helper for C10: the strict inequality guard against zero holds exactly
when `parseFloat` of the income did not yield the number zero. -/
theorem jsStrictNeq_zero_iff (a : Option ℚ) :
    jsStrictNeq a (some 0) = true ↔ a ≠ some 0 := by
  cases a with
  | none => simp [jsStrictNeq]
  | some q => simp [jsStrictNeq]

/-- C10: the profit margin is non null exactly when a summary is present and
`parseFloat` of its total income is not the number zero; the card is
rendered exactly when the margin is non null; and with a summary whose
parsed income is zero the margin is `null`, so the division is never
evaluated with a zero denominator. -/
theorem profitMargin_zero_denominator_guard (parse : String → Option ℚ)
    (cms : Option FinancialSummary) :
    (profitMargin parse cms ≠ none ↔
      ∃ s, cms = some s ∧ parse s.total_income ≠ some 0) ∧
    (profitMarginCardRendered parse cms = true ↔ profitMargin parse cms ≠ none) ∧
    (∀ s, cms = some s → parse s.total_income = some 0 →
      profitMargin parse cms = none) := by
  refine ⟨?_, ?_, ?_⟩
  · cases cms with
    | none => simp [profitMargin]
    | some s =>
      by_cases hz : parse s.total_income = some 0
      · simp [profitMargin, hz, jsStrictNeq]
      · have hb := (jsStrictNeq_zero_iff (parse s.total_income)).2 hz
        simp [profitMargin, hb, hz]
  · simp [profitMarginCardRendered, Option.isSome_iff_ne_none]
  · intro s hs hz
    subst hs
    have hb : jsStrictNeq (parse s.total_income) (some 0) = false := by
      rw [hz]
      simp [jsStrictNeq]
    simp [profitMargin, hb]

/-- One iteration of the scan in `getTopItem` (`App.tsx` lines 126 to 132):
parse the value, take the absolute value when asked, and replace the running
top item when there is none yet or the new amount is strictly greater. The
try catch of the source is dead code, since `parseFloat` never throws. -/
def getTopItemStep (parse : String → Option ℚ) (takeAbsoluteValue : Bool)
    (topItem : Option (String × Option ℚ)) (kv : String × String) :
    Option (String × Option ℚ) :=
  let amount := if takeAbsoluteValue then jsAbs (parse kv.2) else parse kv.2
  match topItem with
  | none => some (kv.1, amount)
  | some top => if jsGt amount top.2 then some (kv.1, amount) else some top

/-- `App.tsx` lines 123 to 134, `getTopItem`: `null` for an undefined or
empty mapping, otherwise the linear scan over the entries in iteration
order. -/
def getTopItem (parse : String → Option ℚ)
    (data : Option (List (String × String))) (takeAbsoluteValue : Bool) :
    Option (String × Option ℚ) :=
  match data with
  | none => none
  | some entries =>
      if entries.isEmpty then none
      else entries.foldl (getTopItemStep parse takeAbsoluteValue) none

/-- The amount the scan compares for one entry, once every value parses: the
parsed number, in absolute value when asked. -/
def adjustedAmount (v : String → ℚ) (takeAbsoluteValue : Bool)
    (p : String × String) : String × ℚ :=
  (p.1, if takeAbsoluteValue then |v p.2| else v p.2)

/-- The scan of `getTopItem` restricted to parsed amounts: keep the running
pair unless the new amount is strictly greater. -/
def topFold (acc : String × ℚ) (l : List (String × ℚ)) : String × ℚ :=
  l.foldl (fun top kv => if top.2 < kv.2 then kv else top) acc

/-- When every value of the tail parses, the `getTopItem` fold starting from
a parsed running pair is the parsed scan `topFold`. -/
theorem getTopItem_foldl_reduction (parse : String → Option ℚ) (tA : Bool)
    (v : String → ℚ) :
    ∀ (l : List (String × String)), (∀ p ∈ l, parse p.2 = some (v p.2)) →
    ∀ acc : String × ℚ,
    l.foldl (getTopItemStep parse tA) (some (acc.1, some acc.2)) =
      some ((topFold acc (l.map (adjustedAmount v tA))).1,
        some ((topFold acc (l.map (adjustedAmount v tA))).2)) := by
  intro l
  induction l with
  | nil => intro _ acc; simp [topFold]
  | cons x xs ih =>
    intro hp acc
    have hx : parse x.2 = some (v x.2) := hp x (by simp)
    have hxs : ∀ p ∈ xs, parse p.2 = some (v p.2) := fun p hpp => hp p (by simp [hpp])
    have hamount : (if tA then jsAbs (parse x.2) else parse x.2) =
        some (adjustedAmount v tA x).2 := by
      cases tA <;> simp [hx, jsAbs, adjustedAmount]
    by_cases hlt : acc.2 < (adjustedAmount v tA x).2
    · have hstep : getTopItemStep parse tA (some (acc.1, some acc.2)) x =
          some ((adjustedAmount v tA x).1, some ((adjustedAmount v tA x).2)) := by
        simp [getTopItemStep, hamount, jsGt, hlt]
        rfl
      have hTF : topFold acc ((x :: xs).map (adjustedAmount v tA)) =
          topFold (adjustedAmount v tA x) (xs.map (adjustedAmount v tA)) := by
        simp [topFold, hlt]
      rw [List.foldl_cons, hstep, ih hxs (adjustedAmount v tA x), hTF]
    · have hstep : getTopItemStep parse tA (some (acc.1, some acc.2)) x =
          some (acc.1, some acc.2) := by
        simp [getTopItemStep, hamount, jsGt, hlt]
      have hTF : topFold acc ((x :: xs).map (adjustedAmount v tA)) =
          topFold acc (xs.map (adjustedAmount v tA)) := by
        simp [topFold, hlt]
      rw [List.foldl_cons, hstep, ih hxs acc, hTF]

/-- The parsed scan keeps its starting pair exactly while nothing exceeds
it, and otherwise lands on the first entry of the list that attains the
maximum, every earlier entry being strictly smaller. -/
theorem topFold_first_max :
    ∀ (l : List (String × ℚ)) (acc : String × ℚ),
    (topFold acc l = acc ∧ ∀ q ∈ l, q.2 ≤ acc.2) ∨
    (∃ w l₁ l₂, l = l₁ ++ w :: l₂ ∧ topFold acc l = w ∧ acc.2 < w.2 ∧
      (∀ q ∈ l₁, q.2 < w.2) ∧ (∀ q ∈ l, q.2 ≤ w.2)) := by
  intro l
  induction l with
  | nil => intro acc; exact Or.inl ⟨rfl, by simp⟩
  | cons x xs ih =>
    intro acc
    by_cases hx : acc.2 < x.2
    · have hfold : topFold acc (x :: xs) = topFold x xs := by
        simp [topFold, hx]
      rcases ih x with ⟨h1, h2⟩ | ⟨w, l₁, l₂, heq, hf, hacc, hl₁, hle⟩
      · refine Or.inr ⟨x, [], xs, rfl, by rw [hfold, h1], hx, by simp, ?_⟩
        intro q hq
        rcases List.mem_cons.1 hq with h | h
        · rw [h]
        · exact h2 q h
      · refine Or.inr ⟨w, x :: l₁, l₂, by rw [heq]; rfl, by rw [hfold, hf],
          lt_trans hx hacc, ?_, ?_⟩
        · intro q hq
          rcases List.mem_cons.1 hq with h | h
          · rw [h]; exact hacc
          · exact hl₁ q h
        · intro q hq
          rcases List.mem_cons.1 hq with h | h
          · rw [h]; exact le_of_lt hacc
          · exact hle q h
    · have hfold : topFold acc (x :: xs) = topFold acc xs := by
        simp [topFold, hx]
      have hxle : x.2 ≤ acc.2 := le_of_not_lt hx
      rcases ih acc with ⟨h1, h2⟩ | ⟨w, l₁, l₂, heq, hf, hacc, hl₁, hle⟩
      · refine Or.inl ⟨by rw [hfold, h1], ?_⟩
        intro q hq
        rcases List.mem_cons.1 hq with h | h
        · rw [h]; exact hxle
        · exact h2 q h
      · refine Or.inr ⟨w, x :: l₁, l₂, by rw [heq]; rfl, by rw [hfold, hf], hacc,
          ?_, ?_⟩
        · intro q hq
          rcases List.mem_cons.1 hq with h | h
          · rw [h]; exact lt_of_le_of_lt hxle hacc
          · exact hl₁ q h
        · intro q hq
          rcases List.mem_cons.1 hq with h | h
          · rw [h]; exact le_of_lt (lt_of_le_of_lt hxle hacc)
          · exact hle q h

/-- C9: for an undefined or empty mapping `getTopItem` returns `null`; for a
defined non empty mapping whose values all parse, it returns the entry whose
parsed amount (absolute value when `takeAbsoluteValue` is set) is maximal,
resolving ties to the first encountered key in iteration order: the winning
entry splits the adjusted entry list so that everything before it is
strictly smaller and nothing anywhere exceeds it. -/
theorem getTopItem_first_encountered_max (parse : String → Option ℚ)
    (takeAbsoluteValue : Bool) (entries : List (String × String))
    (v : String → ℚ) (hne : entries ≠ [])
    (hparse : ∀ p ∈ entries, parse p.2 = some (v p.2)) :
    getTopItem parse none takeAbsoluteValue = none ∧
    getTopItem parse (some []) takeAbsoluteValue = none ∧
    ∃ winner l₁ l₂,
      entries.map (adjustedAmount v takeAbsoluteValue) = l₁ ++ winner :: l₂ ∧
      getTopItem parse (some entries) takeAbsoluteValue =
        some (winner.1, some winner.2) ∧
      (∀ q ∈ l₁, q.2 < winner.2) ∧
      (∀ q ∈ entries.map (adjustedAmount v takeAbsoluteValue), q.2 ≤ winner.2) := by
  refine ⟨rfl, rfl, ?_⟩
  obtain ⟨e, es, rfl⟩ := List.exists_cons_of_ne_nil hne
  have he : parse e.2 = some (v e.2) := hparse e (by simp)
  have hes : ∀ p ∈ es, parse p.2 = some (v p.2) := fun p hp => hparse p (by simp [hp])
  have hstep0 : getTopItemStep parse takeAbsoluteValue none e =
      some ((adjustedAmount v takeAbsoluteValue e).1,
        some ((adjustedAmount v takeAbsoluteValue e).2)) := by
    cases takeAbsoluteValue <;> simp [getTopItemStep, he, jsAbs, adjustedAmount]
  have hval : getTopItem parse (some (e :: es)) takeAbsoluteValue =
      some ((topFold (adjustedAmount v takeAbsoluteValue e)
          (es.map (adjustedAmount v takeAbsoluteValue))).1,
        some ((topFold (adjustedAmount v takeAbsoluteValue e)
          (es.map (adjustedAmount v takeAbsoluteValue))).2)) := by
    show (if (e :: es).isEmpty then none
        else (e :: es).foldl (getTopItemStep parse takeAbsoluteValue) none) = _
    rw [if_neg (by simp)]
    rw [List.foldl_cons, hstep0]
    exact getTopItem_foldl_reduction parse takeAbsoluteValue v es hes
      (adjustedAmount v takeAbsoluteValue e)
  rcases topFold_first_max (es.map (adjustedAmount v takeAbsoluteValue))
      (adjustedAmount v takeAbsoluteValue e) with
    ⟨h1, h2⟩ | ⟨w, l₁, l₂, heq, hf, hacc, hl₁, hle⟩
  · refine ⟨adjustedAmount v takeAbsoluteValue e, [],
      es.map (adjustedAmount v takeAbsoluteValue), by simp, ?_, by simp, ?_⟩
    · rw [hval, h1]
    · intro q hq
      rw [List.map_cons] at hq
      rcases List.mem_cons.1 hq with h | h
      · rw [h]
      · exact h2 q h
  · refine ⟨w, adjustedAmount v takeAbsoluteValue e :: l₁, l₂, ?_, ?_, ?_, ?_⟩
    · simp only [List.map_cons, heq]
      rfl
    · rw [hval, hf]
    · intro q hq
      rcases List.mem_cons.1 hq with h | h
      · rw [h]; exact hacc
      · exact hl₁ q h
    · intro q hq
      rw [List.map_cons] at hq
      rcases List.mem_cons.1 hq with h | h
      · rw [h]; exact le_of_lt hacc
      · exact hle q h

/-- Concrete `parseFloat` table used by the C9 witness. -/
def sampleParse (s : String) : Option ℚ := if s = "2" then some 2 else some 1

/-- Concrete valuation matching `sampleParse` on the sample entries. -/
def sampleVal (s : String) : ℚ := if s = "2" then 2 else 1

/-- Concrete mapping used by the C9 witness, in iteration order. -/
def sampleEntries : List (String × String) := [("a", "1"), ("b", "2")]

/-- C9 witness: on a concrete two entry mapping whose values parse to one
and two, the scan returns the entry with the larger amount. -/
theorem getTopItem_first_encountered_max_witness :
    getTopItem sampleParse none false = none ∧
    getTopItem sampleParse (some []) false = none ∧
    ∃ winner l₁ l₂,
      sampleEntries.map (adjustedAmount sampleVal false) = l₁ ++ winner :: l₂ ∧
      getTopItem sampleParse (some sampleEntries) false =
        some (winner.1, some winner.2) ∧
      (∀ q ∈ l₁, q.2 < winner.2) ∧
      (∀ q ∈ sampleEntries.map (adjustedAmount sampleVal false), q.2 ≤ winner.2) :=
  getTopItem_first_encountered_max sampleParse false sampleEntries sampleVal
    (by decide) (by decide)

/-- The four top level views of the View Selector. -/
inductive View where
  | Loading
  | Login
  | Upload
  | Dashboard
  deriving DecidableEq

/-- Outcome of the data presence probe against the summary endpoint: a 2xx
response carrying `total_transactions`, a non 2xx status with its body text,
or a network failure. -/
inductive PresenceProbeResponse where
  | ok (total_transactions : Nat)
  | httpError (status : Nat) (body : String)
  | networkFailure
  deriving DecidableEq

/-- Modelled from the spec: the data presence boolean of the View Selector
(spec section 4.3). The App variant carrying this probe is missing from the
staged sources — the `AppContent` in `src/unnamed/part_000` routes on
session state alone. Per the spec, the result is derived from
`total_transactions > 0` when a body is available; a 404 or 500 whose body
text matches no transaction or not found means no data; any other error is
treated permissively as having data. -/
def dataPresence (r : PresenceProbeResponse) : Bool :=
  match r with
  | .ok n => decide (0 < n)
  | .httpError status body =>
      if (status == 404 || status == 500)
          && (jsIncludes (jsToLower body) "no transaction"
            || jsIncludes (jsToLower body) "not found") then false
      else true
  | .networkFailure => true

/-- Modelled from the spec: the View Selector (spec section 4.3). While the
session is resolving the view is `Loading`; resolved without a user it is
`Login`; resolved with a user it is `Dashboard` when the presence probe
found data and `Upload` otherwise. -/
def selectView (isLoading : Bool) (user : Option User)
    (probe : PresenceProbeResponse) : View :=
  if isLoading then View.Loading
  else
    match user with
    | none => View.Login
    | some _ => if dataPresence probe then View.Dashboard else View.Upload

/-- C3: for an authenticated session, a presence probe body with
`total_transactions` equal to zero resolves the View Selector to `Upload`,
and one with `total_transactions` positive, such as five, resolves it to
`Dashboard`. -/
theorem viewSelector_presence_probe (u : User) (n : Nat) (hn : 0 < n) :
    selectView false (some u) (PresenceProbeResponse.ok 0) = View.Upload ∧
    selectView false (some u) (PresenceProbeResponse.ok n) = View.Dashboard := by
  constructor
  · simp [selectView, dataPresence]
  · simp [selectView, dataPresence, hn]

/-- C3 witness: zero transactions lead to `Upload` and five transactions
lead to `Dashboard` for a concrete authenticated user. -/
theorem viewSelector_presence_probe_witness :
    selectView false (some ⟨"1", "a@b.c", none⟩)
      (PresenceProbeResponse.ok 0) = View.Upload ∧
    selectView false (some ⟨"1", "a@b.c", none⟩)
      (PresenceProbeResponse.ok 5) = View.Dashboard :=
  viewSelector_presence_probe ⟨"1", "a@b.c", none⟩ 5 (by decide)

end SpendLens
